import Mathlib

/-!
Verification of the task-manager API core: the authentication/session-token
lifecycle (`src/models/user.js`) and the task query / ownership layer.
Pure shallow embedding: the document store is a `List` of records, saves are
explicit state passing, and the external collaborators (bcrypt, HMAC) are
either parameters constrained by their documented contracts or structural
models of their payloads.
-/

namespace TaskManager

/-- A signed session token, as minted by `jwt.sign({ _id: user._id.toString() },
process.env.JWT_SECRET)`.  `jsonwebtoken` serialises a payload holding the
user id and the issued-at timestamp (whole seconds, added by default) together
with an HMAC signature; we keep the three parts structurally (the
serialisation is injective, so string equality of real tokens coincides with
structural equality here). -/
structure Jwt where
  payloadId : String
  iat : Nat
  sig : String
deriving DecidableEq, Repr

/-- Modelled from the spec: the Token Issuer's signature primitive — a
deterministic MAC of the payload under the process-wide secret (the spec calls
`issue` "a pure function of secret + input + implicit timestamp"). -/
def macSig (secret userId : String) (iat : Nat) : String :=
  secret ++ "." ++ userId ++ "." ++ toString iat

/-- `jwt.sign({ _id: userId }, secret)`: payload binds the user id and the
issued-at second; the signature is the MAC of that payload. -/
def jwtSign (secret userId : String) (iat : Nat) : Jwt :=
  { payloadId := userId, iat := iat, sig := macSig secret userId iat }

/-- Modelled from the spec: the Token Issuer's `verify(token) -> userId |
Invalid` (the verifying side lives in the auth middleware, which is not among
the sources): checks signature integrity and returns the embedded user id. -/
def jwtVerify (secret : String) (t : Jwt) : Option String :=
  if t.sig = macSig secret t.payloadId t.iat then some t.payloadId else none

/-- A stored user document (the fields of `userSchema` that the claims touch).
`password` holds the current password string: plaintext right after an
assignment (with `passwordModified = true`, mongoose's `isModified`), the
stored hash once saved. -/
structure UserRec where
  id : String
  name : String
  email : String
  age : Int
  password : String
  passwordModified : Bool
  tokens : List Jwt
deriving DecidableEq, Repr

/-- The user collection of the document store. -/
abbrev UserDb := List UserRec

/-- `userSchema.pre('save')`: if the password field was modified on this
document, replace it with its bcrypt hash before persisting; otherwise leave
the document untouched.  `hash` is the external `bcrypt.hash(·, 8)`. -/
def preSave (hash : String → String) (u : UserRec) : UserRec :=
  if u.passwordModified then
    { u with password := hash u.password, passwordModified := false }
  else u

/-- Persisting a saved document after the pre-save hook ran: replace the
stored copy keyed by `_id`. -/
def saveUser (db : UserDb) (u : UserRec) : UserDb :=
  db.map (fun v => if v.id = u.id then u else v)

/-- `User.findOne({ email })`. -/
def findOneByEmail (db : UserDb) (email : String) : Option UserRec :=
  db.find? (fun u => u.email == email)

/-- `User.findByCredentials(email, password)`: look up by email, throw
`'Unable to login'` if absent; compare the password against the stored hash
via `bcrypt.compare`, throw the same `'Unable to login'` if it fails.
`compare` is the external bcrypt comparator. -/
def findByCredentials (compare : String → String → Bool) (db : UserDb)
    (email password : String) : Except String UserRec :=
  match findOneByEmail db email with
  | none => .error "Unable to login"
  | some user =>
    if compare password user.password then .ok user
    else .error "Unable to login"

/-- `user.generateAuthToken()`: mint a token for `user._id`, append it to
`user.tokens` (`concat`), save the user (running the pre-save hook), return
the token together with the persisted database. -/
def generateAuthToken (hash : String → String) (secret : String) (iat : Nat)
    (db : UserDb) (user : UserRec) : UserDb × Jwt :=
  let token := jwtSign secret user.id iat
  let user' := preSave hash { user with tokens := user.tokens ++ [token] }
  (saveUser db user', token)

/-- `POST /users/login`: `User.findByCredentials` then
`user.generateAuthToken()`.  On failure the store is returned untouched with
the single error; on success the appended token list is persisted before the
token is returned. -/
def login (compare : String → String → Bool) (hash : String → String)
    (secret : String) (iat : Nat) (db : UserDb) (email password : String) :
    UserDb × Except String Jwt :=
  match findByCredentials compare db email password with
  | .error e => (db, .error e)
  | .ok user =>
    let (db', token) := generateAuthToken hash secret iat db user
    (db', .ok token)

/-- Modelled from the spec: `POST /users/logout` (the user router is not among
the sources) — "removes exactly the session entry matching `currentToken` from
the user's token list", i.e. the list is filtered on inequality with the
presented token. -/
def logout (currentToken : Jwt) (user : UserRec) : UserRec :=
  { user with tokens := user.tokens.filter (fun t => t ≠ currentToken) }

/-- A one-way "hash" usable as a concrete stand-in for bcrypt in witnesses:
prefixing makes the output always differ from the input. -/
def hashTag (p : String) : String := "#" ++ p

/-- A bcrypt comparator stand-in that always accepts (for concrete runs that
exercise the success path). -/
def alwaysMatch : String → String → Bool := fun _ _ => true

/-- A concrete stored user for witnesses and counterexamples. -/
def demoUser : UserRec :=
  { id := "id1", name := "Ann", email := "ann@example.com", age := 0,
    password := "#secret9", passwordModified := false,
    tokens := [jwtSign "s" "id1" 1] }

/-- The store after two successful logins of `demoUser` issued in the same
second (`iat = 5` twice). -/
def dbAfterTwoLogins : UserDb :=
  (login alwaysMatch hashTag "s" 5
    (login alwaysMatch hashTag "s" 5 [demoUser] "ann@example.com" "secret9").1
    "ann@example.com" "secret9").1

/-- Modelled from the spec: a stored task document (the task model/schema is
not among the sources) — description, completed flag defaulting to false,
immutable owner reference, timestamps. -/
structure TaskRec where
  id : String
  description : String
  completed : Bool
  owner : String
  createdAt : Nat
  updatedAt : Nat
deriving DecidableEq, Repr

/-- The task collection of the document store. -/
abbrev TaskDb := List TaskRec

/-- Base scope of every task query: only the authenticated owner's tasks. -/
def scopedTasks (tasks : TaskDb) (owner : String) : List TaskRec :=
  tasks.filter (fun t => t.owner == owner)

/-- Modelled from the spec: the optional `completed` query filter — present
("true"/"false") keeps only tasks whose flag matches, absent filters
nothing. -/
def applyCompletedFilter (c : Option String) (l : List TaskRec) : List TaskRec :=
  match c with
  | none => l
  | some v => l.filter (fun t => t.completed == (v == "true"))

/-- Lexicographic character-code comparison of strings (how string fields
compare under sorting). -/
def charListLe : List Char → List Char → Bool
  | [], _ => true
  | _ :: _, [] => false
  | a :: as, b :: bs =>
    if a < b then true
    else if b < a then false
    else charListLe as bs

/-- The sortable fields of `sortBy`: createdAt, updatedAt, description,
completed; an unrecognized field yields no comparator. -/
def fieldLe (f : String) : Option (TaskRec → TaskRec → Bool) :=
  if f = "createdAt" then some (fun a b => a.createdAt ≤ b.createdAt)
  else if f = "updatedAt" then some (fun a b => a.updatedAt ≤ b.updatedAt)
  else if f = "description" then
    some (fun a b => charListLe a.description.toList b.description.toList)
  else if f = "completed" then some (fun a b => !a.completed || b.completed)
  else none

/-- Splitting a character list at every occurrence of a separator
(JavaScript's `String.split`). -/
def splitOnChar (sep : Char) (s : List Char) : List (List Char) :=
  s.foldr (fun c acc =>
    match acc with
    | [] => [[c]]
    | g :: gs => if c = sep then [] :: g :: gs else (c :: g) :: gs) [[]]

/-- Modelled from the spec: parse `sortBy` of the form `field:direction`;
unrecognized field or direction is ignored (no error, natural order). -/
def sortSpec (s : String) : Option (TaskRec → TaskRec → Bool) :=
  match (splitOnChar ':' s.toList).map String.mk with
  | [f, d] =>
    match fieldLe f with
    | none => none
    | some le =>
      if d = "asc" then some le
      else if d = "desc" then some (fun a b => le b a)
      else none
  | _ => none

/-- Apply the optional `sortBy` parameter: stable sort by the parsed
comparator, or the list unchanged when the parameter is absent or ignored. -/
def applySort (s : Option String) (l : List TaskRec) : List TaskRec :=
  match s with
  | none => l
  | some str =>
    match sortSpec str with
    | none => l
    | some le => l.insertionSort (fun a b => le a b = true)

/-- Modelled from the spec: optional `skip` then `limit` pagination; absent
limit is unbounded, non-numeric values are treated as absent (hence the
`Option Nat` inputs). -/
def applyPage (lim skip : Option Nat) (l : List TaskRec) : List TaskRec :=
  let afterSkip := l.drop (skip.getD 0)
  match lim with
  | none => afterSkip
  | some n => afterSkip.take n

/-- Modelled from the spec: `GET /tasks` — the Task Query Engine (the task
router is not among the sources): owner scope, then completed filter, then
sort, then skip/limit pagination. -/
def taskQuery (tasks : TaskDb) (owner : String) (completed sortBy : Option String)
    (lim skip : Option Nat) : List TaskRec :=
  applyPage lim skip (applySort sortBy (applyCompletedFilter completed (scopedTasks tasks owner)))

/-- Modelled from the spec: the Ownership Enforcer's `resolve(owner, taskId)`
— look up the task by id scoped to the owner in the same query. -/
def findTaskScoped (tasks : TaskDb) (owner tid : String) : Option TaskRec :=
  tasks.find? (fun t => t.id == tid && t.owner == owner)

/-- Modelled from the spec: `GET /tasks/:id` — resolve scoped to the caller,
`NotFound` when absent or owned by someone else. -/
def getTask (tasks : TaskDb) (owner tid : String) : Except String TaskRec :=
  match findTaskScoped tasks owner tid with
  | none => .error "NotFound"
  | some t => .ok t

/-- Modelled from the spec: `DELETE /tasks/:id` — delete the task found by the
owner-scoped lookup; `NotFound` (store untouched) when the scoped lookup finds
nothing. -/
def deleteTask (tasks : TaskDb) (owner tid : String) :
    TaskDb × Except String TaskRec :=
  match findTaskScoped tasks owner tid with
  | none => (tasks, .error "NotFound")
  | some t =>
    (tasks.eraseP (fun x => x.id == tid && x.owner == owner), .ok t)

/-- A JSON field value of an update payload. -/
inductive FieldVal where
  | str (s : String)
  | bool (b : Bool)
  | num (n : Int)
deriving DecidableEq, Repr

/-- An update request body: field names with their values. -/
abbrev Payload := List (String × FieldVal)

/-- The task update allow-list. -/
def taskAllowedUpdates : List String := ["description", "completed"]

/-- The user profile update allow-list. -/
def userAllowedUpdates : List String := ["name", "email", "password", "age"]

/-- Modelled from the spec: the allow-list gate — every field name of the
payload must be a member of the allow-list. -/
def allowedKeys (allowed : List String) (p : Payload) : Bool :=
  (p.map Prod.fst).all (fun k => allowed.contains k)

/-- Assign one allowed update field on a task document. -/
def applyTaskField (t : TaskRec) (kv : String × FieldVal) : TaskRec :=
  match kv with
  | ("description", .str s) => { t with description := s }
  | ("completed", .bool b) => { t with completed := b }
  | _ => t

/-- Persisting a saved task document: replace the stored copy keyed by id. -/
def saveTask (tasks : TaskDb) (t : TaskRec) : TaskDb :=
  tasks.map (fun x => if x.id = t.id then t else x)

/-- Modelled from the spec: `PATCH /tasks/:id` — reject the whole request on
any field outside the allow-list before touching the store; then owner-scoped
lookup (`NotFound` leaves the store untouched); then assign and save. -/
def updateTask (tasks : TaskDb) (owner tid : String) (p : Payload) :
    TaskDb × Except String TaskRec :=
  if !allowedKeys taskAllowedUpdates p then
    (tasks, .error "InvalidUpdateFields")
  else
    match findTaskScoped tasks owner tid with
    | none => (tasks, .error "NotFound")
    | some t =>
      let t' := p.foldl applyTaskField t
      (saveTask tasks t', .ok t')

/-- ASCII lowercasing of one character (what `toLowerCase` does on the
alphabet relevant to the "password" content check). -/
def lowerChar (c : Char) : Char :=
  if 'A' ≤ c ∧ c ≤ 'Z' then Char.ofNat (c.toNat + 32) else c

/-- Trimming leading and trailing whitespace, the `trim: true` schema
setter. -/
def trimChars (s : List Char) : List Char :=
  ((s.dropWhile Char.isWhitespace).reverse.dropWhile Char.isWhitespace).reverse

/-- The password validator of `userSchema` (`src/models/user.js`): the value
is trimmed by the schema setter, must have `minlength: 7`, and must not
contain the word "password" in any case. -/
def validPassword (p : String) : Bool :=
  let t := trimChars p.toList
  decide (7 ≤ t.length) &&
    !(decide (List.IsInfix "password".toList (t.map lowerChar)))

/-- Validation of a user document on save: the password validator from the
schema, plus the remaining schema validators (email shape etc.), which are
external collaborators, abstracted as `otherValid`. -/
def validateUser (otherValid : UserRec → Bool) (u : UserRec) : Bool :=
  otherValid u && validPassword u.password

/-- Inserting a freshly created document. -/
def insertUser (db : UserDb) (u : UserRec) : UserDb := db ++ [u]

/-- Modelled from the spec: `POST /users` — validate the new document, hash
the password via the pre-save hook, insert, then `generateAuthToken` (which
saves again); validation failure persists nothing. -/
def signup (otherValid : UserRec → Bool) (hash : String → String)
    (secret : String) (iat : Nat) (db : UserDb) (u : UserRec) :
    UserDb × Except String (UserRec × Jwt) :=
  if validateUser otherValid u then
    let u1 := preSave hash u
    let db1 := insertUser db u1
    let (db2, tok) := generateAuthToken hash secret iat db1 u1
    (db2, .ok ({ u1 with tokens := u1.tokens ++ [tok] }, tok))
  else (db, .error "ValidationError")

/-- Assign one allowed update field on a user document (a password assignment
marks the field modified, so the pre-save hook rehashes it). -/
def applyUserField (u : UserRec) (kv : String × FieldVal) : UserRec :=
  match kv with
  | ("name", .str s) => { u with name := s }
  | ("email", .str s) => { u with email := s }
  | ("password", .str s) => { u with password := s, passwordModified := true }
  | ("age", .num n) => { u with age := n }
  | _ => u

/-- Modelled from the spec: `PATCH /users/me` — reject the whole request on
any field outside the allow-list before touching the store; then assign the
fields on the authenticated user and save (validation, then the pre-save
hash hook); validation failure persists nothing. -/
def updateUser (otherValid : UserRec → Bool) (hash : String → String)
    (db : UserDb) (uid : String) (p : Payload) :
    UserDb × Except String UserRec :=
  if !allowedKeys userAllowedUpdates p then
    (db, .error "InvalidUpdateFields")
  else
    match db.find? (fun u => u.id == uid) with
    | none => (db, .error "NotFound")
    | some u =>
      let u' := p.foldl applyUserField u
      if validateUser otherValid u' then
        let u2 := preSave hash u'
        (saveUser db u2, .ok u2)
      else (db, .error "ValidationError")

/-- A concrete task owned by somebody other than the caller used in
witnesses. -/
def demoTask : TaskRec :=
  { id := "t1", description := "Buy milk", completed := false,
    owner := "bob", createdAt := 10, updatedAt := 10 }

end TaskManager

namespace TaskManager

lemma hashTag_ne (p : String) : hashTag p ≠ p := by
  intro h
  have hlen := congrArg String.length h
  simp [hashTag, String.length_append] at hlen
  simp [String.length] at hlen

/-- C5: verifying a token issued for a user id yields back that user id:
`verify(issue(userId)) = userId` under the same process-wide secret. -/
theorem jwtVerify_jwtSign (secret userId : String) (iat : Nat) :
    jwtVerify secret (jwtSign secret userId iat) = some userId := by
  simp [jwtVerify, jwtSign]

/-- C2: whether no user has the email or the bcrypt comparison fails, `login`
returns the identical single `'Unable to login'` error and leaves the store —
in particular every token list — untouched. -/
theorem login_failure_uniform (compare : String → String → Bool)
    (hash : String → String) (secret : String) (iat : Nat) (db : UserDb)
    (email password : String)
    (h : findOneByEmail db email = none ∨
      ∃ u, findOneByEmail db email = some u ∧ compare password u.password = false) :
    login compare hash secret iat db email password =
      (db, .error "Unable to login") := by
  rcases h with h | ⟨u, hu, hcmp⟩ <;>
    simp [login, findByCredentials, *]

/-- C2 witness: a store with one user whose password comparison fails. -/
theorem login_failure_uniform_witness :
    login (fun _ _ => false) hashTag "s" 7 [demoUser] "ann@example.com" "wrong" =
      ([demoUser], .error "Unable to login") :=
  login_failure_uniform (fun _ _ => false) hashTag "s" 7 [demoUser]
    "ann@example.com" "wrong" (Or.inr ⟨demoUser, by decide, rfl⟩)

/-- C4: the pre-save hook regenerates the stored password if and only if the
plaintext password field was modified on this save: when modified, the stored
value becomes the one-way hash (never equal to the plaintext); when not
modified, the document — hence the stored hash — is byte-for-byte unchanged;
and a re-save straight after a save never rehashes. -/
theorem preSave_rehash_iff (hash : String → String)
    (hOneWay : ∀ p, hash p ≠ p) (u : UserRec) :
    (u.passwordModified = true →
      (preSave hash u).password = hash u.password ∧
      (preSave hash u).password ≠ u.password) ∧
    (u.passwordModified = false → preSave hash u = u) ∧
    preSave hash (preSave hash u) = preSave hash u := by
  refine ⟨fun hmod => ?_, fun hmod => ?_, ?_⟩
  · simp [preSave, hmod]
    exact hOneWay u.password
  · simp [preSave, hmod]
  · by_cases hmod : u.passwordModified <;> simp [preSave, hmod]

/-- C4 witness: the hook evaluated with the concrete one-way hash `hashTag`
rehashes a concrete modified document (result differing from the plaintext)
and leaves the unmodified `demoUser` untouched. -/
theorem preSave_rehash_iff_witness :
    (preSave hashTag { demoUser with passwordModified := true }).password =
      hashTag ({ demoUser with passwordModified := true } : UserRec).password ∧
    (preSave hashTag { demoUser with passwordModified := true }).password ≠
      ({ demoUser with passwordModified := true } : UserRec).password ∧
    preSave hashTag demoUser = demoUser :=
  ⟨((preSave_rehash_iff hashTag hashTag_ne
      { demoUser with passwordModified := true }).1 rfl).1,
    ((preSave_rehash_iff hashTag hashTag_ne
      { demoUser with passwordModified := true }).1 rfl).2,
    (preSave_rehash_iff hashTag hashTag_ne demoUser).2.1 rfl⟩

/-- Shared helper: the exact result of a successful login — the found user,
with the fresh token appended, is saved back into the store and the token is
returned. -/
lemma login_success_eq (compare : String → String → Bool)
    (hash : String → String) (secret : String) (iat : Nat) (db : UserDb)
    (email password : String) (u : UserRec)
    (hfind : findOneByEmail db email = some u)
    (hcmp : compare password u.password = true)
    (hloaded : u.passwordModified = false) :
    login compare hash secret iat db email password =
      (saveUser db { u with tokens := u.tokens ++ [jwtSign secret u.id iat] },
        .ok (jwtSign secret u.id iat)) := by
  simp [login, findByCredentials, generateAuthToken, preSave, hfind, hcmp, hloaded]

/-- C6: a login with correct credentials appends exactly one freshly minted
token at the end of the found user's token list (length strictly increases
by 1) and persists that appended list into the returned store before the token
is returned. -/
theorem login_success_appends (compare : String → String → Bool)
    (hash : String → String) (secret : String) (iat : Nat) (db : UserDb)
    (email password : String) (u : UserRec)
    (hfind : findOneByEmail db email = some u)
    (hcmp : compare password u.password = true)
    (hloaded : u.passwordModified = false) :
    login compare hash secret iat db email password =
      (saveUser db { u with tokens := u.tokens ++ [jwtSign secret u.id iat] },
        .ok (jwtSign secret u.id iat)) ∧
    ({ u with tokens := u.tokens ++ [jwtSign secret u.id iat] } : UserRec).tokens.length
      = u.tokens.length + 1 :=
  ⟨login_success_eq compare hash secret iat db email password u hfind hcmp hloaded,
    by simp⟩

/-- C6 witness: a concrete successful login of `demoUser`. -/
theorem login_success_appends_witness :
    login alwaysMatch hashTag "s" 5 [demoUser] "ann@example.com" "secret9" =
      (saveUser [demoUser]
        { demoUser with tokens := demoUser.tokens ++ [jwtSign "s" demoUser.id 5] },
        .ok (jwtSign "s" demoUser.id 5)) ∧
    ({ demoUser with tokens := demoUser.tokens ++ [jwtSign "s" demoUser.id 5] } :
        UserRec).tokens.length = demoUser.tokens.length + 1 :=
  login_success_appends alwaysMatch hashTag "s" 5 [demoUser] "ann@example.com"
    "secret9" demoUser (by decide) rfl rfl

/-- Shared helper: filtering out an element that occurs exactly once is
erasing its single occurrence. -/
lemma filter_ne_eq_erase {α : Type} [DecidableEq α] (l : List α) (a : α)
    (h : l.count a = 1) : l.filter (fun t => t ≠ a) = l.erase a := by
  induction l with
  | nil => simp at h
  | cons x xs ih =>
    by_cases hx : x = a
    · subst hx
      rw [List.count_cons_self] at h
      have hzero : xs.count x = 0 := by omega
      have hnot : x ∉ xs := by
        rw [← List.count_pos_iff]
        omega
      rw [List.erase_cons_head]
      rw [List.filter_cons_of_neg (by simp)]
      exact List.filter_eq_self.mpr fun b hb => by
        simp only [ne_eq, decide_eq_true_eq]
        exact fun hba => hnot (hba ▸ hb)
    · rw [List.count_cons_of_ne (Ne.symm hx)] at h
      rw [List.erase_cons_tail (by simp [hx])]
      rw [List.filter_cons_of_pos (by simp [hx])]
      rw [ih h]

/-- C7: when the presented token occurs exactly once in the authenticated
user's token list, logout removes exactly that one entry (the result is the
`erase` of the list, one shorter), keeps the remaining entries in their
original relative order (the result is a sublist of the original), and keeps
every entry other than the presented token. -/
theorem logout_removes_exactly_one (user : UserRec) (tok : Jwt)
    (huniq : user.tokens.count tok = 1) :
    (logout tok user).tokens = user.tokens.erase tok ∧
    (logout tok user).tokens.length + 1 = user.tokens.length ∧
    (logout tok user).tokens.Sublist user.tokens ∧
    (∀ t ∈ user.tokens, t ≠ tok → t ∈ (logout tok user).tokens) := by
  have hmem : tok ∈ user.tokens := by
    rw [← List.count_pos_iff]; omega
  have hfe : (logout tok user).tokens = user.tokens.erase tok :=
    filter_ne_eq_erase user.tokens tok huniq
  refine ⟨hfe, ?_, ?_, ?_⟩
  · rw [hfe, List.length_erase_of_mem hmem]
    have : 0 < user.tokens.length := List.length_pos.mpr (List.ne_nil_of_mem hmem)
    omega
  · exact List.filter_sublist _
  · intro t ht htne
    simp only [logout, List.mem_filter, ne_eq, decide_eq_true_eq]
    exact ⟨ht, htne⟩

/-- C7 witness: logging out the second of `demoUser`'s two session tokens
removes it and keeps the first one. -/
theorem logout_removes_exactly_one_witness :
    (logout (jwtSign "s" "id1" 2)
        { demoUser with tokens := [jwtSign "s" "id1" 1, jwtSign "s" "id1" 2] }).tokens =
      ([jwtSign "s" "id1" 1, jwtSign "s" "id1" 2].erase (jwtSign "s" "id1" 2)) ∧
    (logout (jwtSign "s" "id1" 2)
        { demoUser with tokens := [jwtSign "s" "id1" 1, jwtSign "s" "id1" 2] }).tokens.length + 1 =
      ([jwtSign "s" "id1" 1, jwtSign "s" "id1" 2] : List Jwt).length ∧
    (logout (jwtSign "s" "id1" 2)
        { demoUser with tokens := [jwtSign "s" "id1" 1, jwtSign "s" "id1" 2] }).tokens.Sublist
      [jwtSign "s" "id1" 1, jwtSign "s" "id1" 2] ∧
    jwtSign "s" "id1" 1 ∈ (logout (jwtSign "s" "id1" 2)
        { demoUser with tokens := [jwtSign "s" "id1" 1, jwtSign "s" "id1" 2] }).tokens :=
  ⟨(logout_removes_exactly_one
      { demoUser with tokens := [jwtSign "s" "id1" 1, jwtSign "s" "id1" 2] }
      (jwtSign "s" "id1" 2) (by decide)).1,
    (logout_removes_exactly_one
      { demoUser with tokens := [jwtSign "s" "id1" 1, jwtSign "s" "id1" 2] }
      (jwtSign "s" "id1" 2) (by decide)).2.1,
    (logout_removes_exactly_one
      { demoUser with tokens := [jwtSign "s" "id1" 1, jwtSign "s" "id1" 2] }
      (jwtSign "s" "id1" 2) (by decide)).2.2.1,
    (logout_removes_exactly_one
      { demoUser with tokens := [jwtSign "s" "id1" 1, jwtSign "s" "id1" 2] }
      (jwtSign "s" "id1" 2) (by decide)).2.2.2
      (jwtSign "s" "id1" 1) (by decide) (by decide)⟩

/-- C8 counterexample: two successful logins of the same user issued in the
same second (`jwt.sign` timestamps at whole-second granularity and is
deterministic given payload and secret) append two equal tokens, so the
user's token list does contain duplicates. -/
theorem login_same_second_duplicate_tokens :
    dbAfterTwoLogins.map UserRec.tokens =
      [[jwtSign "s" "id1" 1, jwtSign "s" "id1" 5, jwtSign "s" "id1" 5]] ∧
    ¬ ∀ u ∈ dbAfterTwoLogins, u.tokens.Nodup := by
  constructor
  · decide
  · decide

/-- C8 amended: each login mints a token that is a deterministic function of
the user id and the issued-at second; the minted token is distinct from all
tokens already in the list — and the persisted list stays duplicate-free —
whenever the login's timestamp differs from the timestamps of every token
already in the list (logins sharing a second mint equal tokens, so duplicates
are then possible). -/
theorem login_fresh_iat_nodup (compare : String → String → Bool)
    (hash : String → String) (secret : String) (iat : Nat) (db : UserDb)
    (email password : String) (u : UserRec)
    (hfind : findOneByEmail db email = some u)
    (hcmp : compare password u.password = true)
    (hloaded : u.passwordModified = false)
    (hnodup : u.tokens.Nodup)
    (hfresh : ∀ t ∈ u.tokens, t.iat ≠ iat) :
    ∀ v ∈ (login compare hash secret iat db email password).1,
      v.id = u.id →
        v.tokens = u.tokens ++ [jwtSign secret u.id iat] ∧ v.tokens.Nodup := by
  intro v hv hid
  rw [login_success_eq compare hash secret iat db email password u hfind hcmp hloaded]
    at hv
  simp only [saveUser, List.mem_map] at hv
  obtain ⟨w, hw, hvw⟩ := hv
  by_cases hwid : w.id = u.id
  · rw [if_pos hwid] at hvw
    subst hvw
    refine ⟨rfl, ?_⟩
    rw [List.nodup_append]
    refine ⟨hnodup, List.nodup_singleton _, ?_⟩
    intro t ht ht'
    simp only [List.mem_singleton] at ht'
    exact hfresh t ht (by rw [ht']; rfl)
  · rw [if_neg hwid] at hvw
    subst hvw
    exact absurd hid hwid

/-- C8 amended witness: a login of `demoUser` (holding one token issued at
second 1) at second 2 persists the appended, still duplicate-free token
list. -/
theorem login_fresh_iat_nodup_witness :
    ({ demoUser with tokens := demoUser.tokens ++ [jwtSign "s" "id1" 2] } : UserRec) ∈
      (login alwaysMatch hashTag "s" 2 [demoUser] "ann@example.com" "secret9").1 ∧
    (({ demoUser with tokens := demoUser.tokens ++ [jwtSign "s" "id1" 2] } : UserRec).tokens =
        demoUser.tokens ++ [jwtSign "s" demoUser.id 2] ∧
      ({ demoUser with tokens := demoUser.tokens ++ [jwtSign "s" "id1" 2] } : UserRec).tokens.Nodup) :=
  ⟨by decide,
    login_fresh_iat_nodup alwaysMatch hashTag "s" 2 [demoUser] "ann@example.com"
      "secret9" demoUser (by decide) rfl rfl (by decide) (by decide)
      { demoUser with tokens := demoUser.tokens ++ [jwtSign "s" "id1" 2] }
      (by decide) rfl⟩

/-- Shared helper: pagination only selects from the list. -/
lemma applyPage_subset (lim skip : Option Nat) (l : List TaskRec) :
    applyPage lim skip l ⊆ l := by
  intro x hx
  unfold applyPage at hx
  cases lim with
  | none => exact List.drop_subset _ _ hx
  | some n => exact List.drop_subset _ _ (List.take_subset _ _ hx)

/-- Shared helper: sorting only permutes the list. -/
lemma applySort_subset (s : Option String) (l : List TaskRec) :
    applySort s l ⊆ l := by
  intro x hx
  unfold applySort at hx
  cases s with
  | none => exact hx
  | some str =>
    cases hss : sortSpec str with
    | none => simp only [hss] at hx; exact hx
    | some le => simp only [hss] at hx; exact (List.mem_insertionSort _).mp hx

/-- Shared helper: the completed filter only selects from the list. -/
lemma applyCompletedFilter_subset (c : Option String) (l : List TaskRec) :
    applyCompletedFilter c l ⊆ l := by
  intro x hx
  unfold applyCompletedFilter at hx
  cases c with
  | none => exact hx
  | some v => exact List.mem_of_mem_filter hx

/-- C1: every task returned by `GET /tasks` is owned by the authenticated
caller, for every combination of the completed / sortBy / limit / skip
parameters — a task owned by another user never appears. -/
theorem taskQuery_owner_scoped (tasks : TaskDb) (owner : String)
    (c s : Option String) (lim skip : Option Nat) :
    ∀ t ∈ taskQuery tasks owner c s lim skip, t.owner = owner := by
  intro t ht
  have h1 := applyPage_subset lim skip _ ht
  have h2 := applySort_subset s _ h1
  have h3 := applyCompletedFilter_subset c _ h2
  unfold scopedTasks at h3
  have h4 := List.of_mem_filter h3
  exact eq_of_beq h4

/-- C1 witness: a concrete filtered, sorted and paginated query over a store
holding a foreign task returns the caller's task, which is owned by the
caller. -/
theorem taskQuery_owner_scoped_witness :
    ({ demoTask with id := "t2", owner := "alice" } : TaskRec) ∈
      taskQuery [demoTask, { demoTask with id := "t2", owner := "alice" }]
        "alice" (some "false") (some "description:desc") (some 5) (some 0) ∧
    ({ demoTask with id := "t2", owner := "alice" } : TaskRec).owner = "alice" :=
  ⟨by decide,
    taskQuery_owner_scoped
      [demoTask, { demoTask with id := "t2", owner := "alice" }] "alice"
      (some "false") (some "description:desc") (some 5) (some 0)
      { demoTask with id := "t2", owner := "alice" } (by decide)⟩

/-- C3: when no stored task both has the requested id and is owned by the
caller — which covers a task owned by a different user just as well as a
nonexistent id — get-one, update and delete-one all yield the identical
`NotFound` outcome for the two requests and mutate nothing. -/
theorem cross_user_indistinguishable (tasks : TaskDb)
    (owner tidOther tidMissing : String) (p : Payload)
    (hOther : ∀ t ∈ tasks, t.id = tidOther → t.owner ≠ owner)
    (hMissing : ∀ t ∈ tasks, t.id ≠ tidMissing) :
    getTask tasks owner tidOther = .error "NotFound" ∧
    getTask tasks owner tidOther = getTask tasks owner tidMissing ∧
    updateTask tasks owner tidOther p = updateTask tasks owner tidMissing p ∧
    (updateTask tasks owner tidOther p).1 = tasks ∧
    deleteTask tasks owner tidOther = deleteTask tasks owner tidMissing ∧
    (deleteTask tasks owner tidOther).1 = tasks := by
  have hfO : findTaskScoped tasks owner tidOther = none := by
    rw [findTaskScoped, List.find?_eq_none]
    intro x hx h
    rw [Bool.and_eq_true, beq_iff_eq, beq_iff_eq] at h
    exact hOther x hx h.1 h.2
  have hfM : findTaskScoped tasks owner tidMissing = none := by
    rw [findTaskScoped, List.find?_eq_none]
    intro x hx h
    rw [Bool.and_eq_true, beq_iff_eq, beq_iff_eq] at h
    exact hMissing x hx h.1
  refine ⟨by simp [getTask, hfO], by simp [getTask, hfO, hfM], ?_, ?_, ?_, ?_⟩
  · cases hk : allowedKeys taskAllowedUpdates p <;>
      simp [updateTask, hk, hfO, hfM]
  · cases hk : allowedKeys taskAllowedUpdates p <;>
      simp [updateTask, hk, hfO]
  · simp [deleteTask, hfO, hfM]
  · simp [deleteTask, hfO]

/-- C3 witness: `demoTask` is owned by "bob"; for caller "alice" its id "t1"
behaves exactly like the fresh id "zz". -/
theorem cross_user_indistinguishable_witness :
    getTask [demoTask] "alice" "t1" = .error "NotFound" ∧
    getTask [demoTask] "alice" "t1" = getTask [demoTask] "alice" "zz" ∧
    updateTask [demoTask] "alice" "t1" [("description", FieldVal.str "x")] =
      updateTask [demoTask] "alice" "zz" [("description", FieldVal.str "x")] ∧
    (updateTask [demoTask] "alice" "t1" [("description", FieldVal.str "x")]).1 =
      [demoTask] ∧
    deleteTask [demoTask] "alice" "t1" = deleteTask [demoTask] "alice" "zz" ∧
    (deleteTask [demoTask] "alice" "t1").1 = [demoTask] :=
  cross_user_indistinguishable [demoTask] "alice" "t1" "zz"
    [("description", FieldVal.str "x")] (by decide) (by decide)

/-- C9: an update payload with any field name outside the allow-list —
{description, completed} for tasks, {name, email, password, age} for user
profiles — makes the whole update fail with the single invalid-fields error
while the store is returned entirely unchanged (no partial mutation). -/
theorem update_allowlist_atomic (tasks : TaskDb) (owner tid : String)
    (tp : Payload) (otherValid : UserRec → Bool) (hash : String → String)
    (db : UserDb) (uid : String) (up : Payload)
    (htp : allowedKeys taskAllowedUpdates tp = false)
    (hup : allowedKeys userAllowedUpdates up = false) :
    updateTask tasks owner tid tp = (tasks, .error "InvalidUpdateFields") ∧
    updateUser otherValid hash db uid up = (db, .error "InvalidUpdateFields") := by
  constructor
  · simp [updateTask, htp]
  · simp [updateUser, hup]

/-- C9 witness: the disallowed payloads exercised by the repository's tests
(`title`/`done` on a task, `location`/`dob` on a profile). -/
theorem update_allowlist_atomic_witness :
    updateTask [demoTask] "bob" "t1"
        [("title", FieldVal.str "Updated description"), ("done", FieldVal.bool true)] =
      ([demoTask], .error "InvalidUpdateFields") ∧
    updateUser (fun _ => true) hashTag [demoUser] "id1"
        [("location", FieldVal.str "Chicago"), ("dob", FieldVal.str "01/01/70")] =
      ([demoUser], .error "InvalidUpdateFields") :=
  update_allowlist_atomic [demoTask] "bob" "t1"
    [("title", FieldVal.str "Updated description"), ("done", FieldVal.bool true)]
    (fun _ => true) hashTag [demoUser] "id1"
    [("location", FieldVal.str "Chicago"), ("dob", FieldVal.str "01/01/70")]
    (by decide) (by decide)

/-- Shared helper: a password whose trimmed length is below 7 fails the
schema validator. -/
lemma validPassword_short (p : String)
    (h : (trimChars p.toList).length < 7) : validPassword p = false := by
  simp only [validPassword]
  rw [decide_eq_false (Nat.not_le.mpr h)]
  rw [Bool.false_and]

/-- C10: a password whose trimmed length is below the schema's
`minlength: 7` fails validation, so both a signup carrying it and a profile
update assigning it are rejected with the validation error and persist
nothing (the store is returned unchanged). -/
theorem short_password_rejected (otherValid : UserRec → Bool)
    (hash : String → String) (secret : String) (iat : Nat) (db : UserDb)
    (u : UserRec) (uid : String) (w : UserRec) (p : Payload)
    (hsign : (trimChars u.password.toList).length < 7)
    (hkeys : allowedKeys userAllowedUpdates p = true)
    (hfind : db.find? (fun v => v.id == uid) = some w)
    (hupd : (trimChars (p.foldl applyUserField w).password.toList).length < 7) :
    validPassword u.password = false ∧
    signup otherValid hash secret iat db u = (db, .error "ValidationError") ∧
    updateUser otherValid hash db uid p = (db, .error "ValidationError") := by
  refine ⟨validPassword_short _ hsign, ?_, ?_⟩
  · have hv : validateUser otherValid u = false := by
      rw [validateUser, validPassword_short _ hsign, Bool.and_false]
    simp [signup, hv]
  · have hv : validateUser otherValid (p.foldl applyUserField w) = false := by
      rw [validateUser, validPassword_short _ hupd, Bool.and_false]
    simp [updateUser, hkeys, hfind, hv]

/-- C10 witness: the password "123" (from the repository's invalid-password
test data) is rejected at signup and at profile update, with `demoUser`'s
store untouched. -/
theorem short_password_rejected_witness :
    validPassword "123" = false ∧
    signup (fun _ => true) hashTag "s" 5 [demoUser]
        { demoUser with
          id := "id2"
          email := "new@example.com"
          password := "123"
          passwordModified := true
          tokens := [] } =
      ([demoUser], .error "ValidationError") ∧
    updateUser (fun _ => true) hashTag [demoUser] "id1"
        [("password", FieldVal.str "123")] =
      ([demoUser], .error "ValidationError") :=
  short_password_rejected (fun _ => true) hashTag "s" 5 [demoUser]
    { demoUser with
      id := "id2"
      email := "new@example.com"
      password := "123"
      passwordModified := true
      tokens := [] }
    "id1" demoUser [("password", FieldVal.str "123")]
    (by decide) (by decide) (by decide) (by decide)

end TaskManager
